import Mathlib

/-!
Verification of the parkeze-cam occupancy pipeline (`src/app.py`).

The pipeline's numeric values (pixel coordinates, confidence scores) are
modelled as exact rationals; Python's float literal `0.7` is the rational
`7/10`.  Fallible Python code (KeyError / IndexError / NameError) is
modelled with `Option`: `none` is an uncaught exception.
-/

namespace ParkEze

/-- A 2D point in camera-image pixel space. -/
abbrev Pt : Type := ℚ × ℚ

/-- An axis-aligned bounding box, the `box` field of a detection record. -/
structure Box where
  xmin : ℚ
  ymin : ℚ
  xmax : ℚ
  ymax : ℚ
deriving DecidableEq

/-- The box center computed at the top of `check_overlap`:
`((xmin+xmax)/2, (ymin+ymax)/2)`. -/
def boxCenter (b : Box) : Pt := ((b.xmin + b.xmax) / 2, (b.ymin + b.ymax) / 2)

/-- The mutable state of `check_overlap`'s loop: the current edge start
`(p1x, p1y)`, the `is_inside` flag, and the Python local `x_intersection`
(`none` while the variable is still unassigned; reading it while `none`
would raise `NameError`). -/
structure RayState where
  p1x : ℚ
  p1y : ℚ
  inside : Bool
  xint : Option ℚ
deriving DecidableEq

/-- The x-intersection formula from `check_overlap`:
`(y - p1y) * (p2x - p1x) / (p2y - p1y) + p1x`. -/
def xIntersection (cy p1x p1y p2x p2y : ℚ) : ℚ :=
  (cy - p1y) * (p2x - p1x) / (p2y - p1y) + p1x

/-- The guard of the outer `if` in `check_overlap`'s loop body:
`box_center_y > min(p1y, p2y) and box_center_y <= max(p1y, p2y) and
box_center_x <= max(p1x, p2x)`. -/
def toggleCond (cx cy p1x p1y qx qy : ℚ) : Prop :=
  min p1y qy < cy ∧ cy ≤ max p1y qy ∧ cx ≤ max p1x qx

instance (cx cy p1x p1y qx qy : ℚ) : Decidable (toggleCond cx cy p1x p1y qx qy) := by
  unfold toggleCond; infer_instance

/-- One iteration of `check_overlap`'s `for` loop, processing the next
vertex `q = (p2x, p2y)`.  Returns `none` exactly when Python would raise
`NameError` by reading `x_intersection` before any assignment. -/
def rayStep (cx cy : ℚ) (st : RayState) (q : Pt) : Option RayState :=
  if toggleCond cx cy st.p1x st.p1y q.1 q.2 then
    let xint' : Option ℚ :=
      if st.p1y = q.2 then st.xint
      else some (xIntersection cy st.p1x st.p1y q.1 q.2)
    if st.p1x = q.1 then
      some ⟨q.1, q.2, !st.inside, xint'⟩
    else
      match xint' with
      | none => none
      | some xi => some ⟨q.1, q.2, if cx ≤ xi then !st.inside else st.inside, xint'⟩
  else
    some ⟨q.1, q.2, st.inside, st.xint⟩

/-- The ray-casting loop of `check_overlap` applied to a point:
`p1x, p1y = polygon[0]`, then `for i in range(num_vertices + 1)` with
`p2x, p2y = polygon[i % num_vertices]`, returning `is_inside`.
An empty polygon is `none` (`polygon[0]` raises `IndexError`). -/
def pip (pt : Pt) : List Pt → Option Bool
  | [] => none
  | p0 :: rest =>
    let poly := p0 :: rest
    let n := poly.length
    ((List.range (n + 1)).foldlM
        (fun st i => rayStep pt.1 pt.2 st (poly.getD (i % n) (0, 0)))
        ⟨p0.1, p0.2, false, none⟩).map RayState.inside

/-- The function `check_overlap(box, polygon)`: ray-cast the box center. -/
def check_overlap (box : Box) (polygon : List Pt) : Option Bool :=
  pip (boxCenter box) polygon

/-- A raw entry of the detection service's response list:
either a JSON object (a Python `dict`) with optional `label`, `score`
and `box` fields, or a non-object entry (e.g. a string in an error
payload).  A `label` of non-string JSON type is modelled as `none`,
which the filter treats identically (set membership fails). -/
inductive DetEntry where
  | obj (label : Option String) (score : Option ℚ) (box : Option Box)
  | nonObj
deriving DecidableEq

/-- The vehicle label set of `detect_occupancy`. -/
def vehicle_labels : List String := ["car", "truck", "bus", "motorcycle"]

/-- The filter predicate of `detect_occupancy`'s list comprehension:
`isinstance(obj, dict) and obj.get("label") in vehicle_labels and
obj.get("score", 0) > 0.7`. -/
def isVehicle (d : DetEntry) : Bool :=
  match d with
  | .nonObj => false
  | .obj label score _ =>
    (match label with
     | some l => vehicle_labels.contains l
     | none => false) && decide ((0.7 : ℚ) < score.getD 0)

/-- The `detected_vehicles` list: the filtered detections of `detect_occupancy`. -/
def detected_vehicles (dets : List DetEntry) : List DetEntry :=
  dets.filter isVehicle

/-- Whether a detection record carries a `box` field. -/
def hasBox : DetEntry → Bool
  | .obj _ _ (some _) => true
  | _ => false

/-- The `box` field of a detection record, `none` if absent. -/
def boxOf : DetEntry → Option Box
  | .obj _ _ b => b
  | .nonObj => none

/-- The test `any(check_overlap(vehicle['box'], polygon) for vehicle in vehicles)`:
short-circuiting like Python's `any` over a generator; `vehicle['box']`
on a record without a box is a `KeyError` (`none`). -/
def anyOverlap (vehicles : List DetEntry) (polygon : List Pt) : Option Bool :=
  match vehicles with
  | [] => some false
  | v :: rest =>
    match boxOf v with
    | none => none
    | some b =>
      match check_overlap b polygon with
      | none => none
      | some true => some true
      | some false => anyOverlap rest polygon

/-- The `occupied_status` accumulation loop of `detect_occupancy`. -/
def occupied_status (vehicles : List DetEntry) : List (List Pt) → Option (List Bool)
  | [] => some []
  | polygon :: rest => do
    let b ← anyOverlap vehicles polygon
    let bs ← occupied_status vehicles rest
    pure (b :: bs)

/-- The function `detect_occupancy(image_path, polygons)`, taking the detection list
returned by `hf_detect_objects` as input (the image handling around it
is opaque I/O). -/
def detect_occupancy (dets : List DetEntry) (polygons : List (List Pt)) :
    Option (List Bool) :=
  let vehicles := detected_vehicles dets
  if vehicles.isEmpty then some (List.replicate polygons.length false)
  else occupied_status vehicles polygons

/-- One camera's slice of the `parking_spots.json` configuration. -/
structure CamData where
  polygons : List (List Pt)
  map_spots : List Pt

/-- One iteration of `run_status_check`'s loop over the configuration:
skip to `[]` when there are no polygons, substitute `[False] * len(polygons)`
when the image fetch fails, otherwise run `detect_occupancy`.
`fetch` models `fetch_cam_image` (keyed by the camera's configuration key;
`None` is a failed acquisition) and `detect` models `hf_detect_objects`
on the fetched image. -/
def processCam {Img : Type} (fetch : String → Option Img)
    (detect : Img → List DetEntry) (e : String × CamData) :
    Option (String × List Bool) :=
  if e.2.polygons.isEmpty then some (e.1, [])
  else
    match fetch e.1 with
    | some img => (detect_occupancy (detect img) e.2.polygons).map (fun v => (e.1, v))
    | none => some (e.1, List.replicate e.2.polygons.length false)

/-- The function `run_status_check(spots_data)`: build the status mapping in
configuration order (Python dicts preserve insertion order, so the
mapping is modelled as an association list). -/
def run_status_check {Img : Type} (fetch : String → Option Img)
    (detect : Img → List DetEntry) :
    List (String × CamData) → Option (List (String × List Bool))
  | [] => some []
  | e :: rest => do
    let r ← processCam fetch detect e
    let m ← run_status_check fetch detect rest
    pure (r :: m)

/-! ### Specification-side ray casting over the polygon's edges -/

/-- Whether one polygon edge from `p1` to `q` toggles the inside flag,
as the specification describes it: the half-open y-range test
`min(p1y,p2y) < y <= max(p1y,p2y)`, the `x <= max(p1x,p2x)` test, and
either a vertical edge (`p1x == p2x`, which always passes the
x-intersection test) or `x <= x_intersection`. -/
def edgeToggles (cx cy : ℚ) (p1 q : Pt) : Bool :=
  decide (toggleCond cx cy p1.1 p1.2 q.1 q.2) &&
    (decide (p1.1 = q.1) || decide (cx ≤ xIntersection cy p1.1 p1.2 q.1 q.2))

/-- The polygon's edge list: vertex `i` to vertex `(i+1) % n`. -/
def polygonEdges (poly : List Pt) : List (Pt × Pt) :=
  poly.zip (poly.rotate 1)

/-- The standard ray-cast fold over exactly the polygon's edges. -/
def rayCastEdges (pt : Pt) (poly : List Pt) : Bool :=
  (polygonEdges poly).foldl
    (fun b e => if edgeToggles pt.1 pt.2 e.1 e.2 then !b else b) false

/-- The total state transformer that `rayStep` implements. -/
def pureStep (cx cy : ℚ) (st : RayState) (q : Pt) : RayState :=
  ⟨q.1, q.2,
   if edgeToggles cx cy (st.p1x, st.p1y) q then !st.inside else st.inside,
   if toggleCond cx cy st.p1x st.p1y q.1 q.2 then
     some (xIntersection cy st.p1x st.p1y q.1 q.2)
   else st.xint⟩

/-! ### Concrete fixtures for closed instances -/

/-- A 4-vertex axis-aligned square spot polygon. -/
def sq4 : List Pt := [(0, 0), (4, 0), (4, 4), (0, 4)]

/-- A square spot polygon far away from `sq4`. -/
def farSq : List Pt := [(10, 10), (14, 10), (14, 14), (10, 14)]

/-- A 3-vertex triangle polygon. -/
def tri3 : List Pt := [(0, 0), (3, 0), (0, 3)]

/-- A bounding box with center `(2, 2)`. -/
def carBox : Box := ⟨1, 1, 3, 3⟩

/-- A well-formed car detection above the threshold. -/
def dCar : DetEntry := .obj (some "car") (some 0.9) (some carBox)

/-- A car detection below the threshold. -/
def dCarLow : DetEntry := .obj (some "car") (some 0.5) (some carBox)

/-- A dict record with a vehicle label and passing score but no box. -/
def dBoxless : DetEntry := .obj (some "car") (some 0.9) none

/-- A high-confidence non-vehicle detection. -/
def dPerson : DetEntry := .obj (some "person") (some 0.99) none

/-- An acquisition function for which every camera succeeds. -/
def wFetchOk : String → Option Unit := fun _ => some ()

/-- An acquisition function for which exactly camera `"cam1"` fails. -/
def wFetchFail : String → Option Unit := fun s => if s = "cam1" then none else some ()

/-- A detection service returning no detections. -/
def wDetectNone : Unit → List DetEntry := fun _ => []

/-- A two-camera configuration, one polygon each. -/
def wSpots : List (String × CamData) := [("cam1", ⟨[sq4], []⟩), ("cam2", ⟨[farSq], []⟩)]

/-- Default used with `List.getD` on configuration entries. -/
def noCam : String × CamData := ("", ⟨[], []⟩)

/-- Default used with `List.getD` on status entries. -/
def noEntry : String × List Bool := ("", [])

/-! ### The loop body never divides by zero and never raises `NameError` -/

/-- The outer guard forces the edge to be non-horizontal: a horizontal
edge has `min = max`, which the half-open range `min < cy ≤ max` rules out. -/
theorem toggleCond_ne_y {cx cy p1x p1y qx qy : ℚ}
    (h : toggleCond cx cy p1x p1y qx qy) : p1y ≠ qy := by
  rcases h with ⟨h1, h2, _⟩
  intro he
  subst he
  simp only [min_self, max_self] at h1 h2
  exact absurd h2 (not_le.mpr h1)

/-- Every `rayStep` succeeds, and computes `pureStep`. -/
theorem rayStep_eq (cx cy : ℚ) (st : RayState) (q : Pt) :
    rayStep cx cy st q = some (pureStep cx cy st q) := by
  unfold rayStep pureStep
  by_cases hc : toggleCond cx cy st.p1x st.p1y q.1 q.2
  · have hne : st.p1y ≠ q.2 := toggleCond_ne_y hc
    rw [if_pos hc, if_pos hc, if_neg hne]
    by_cases hx : st.p1x = q.1
    · have hedge : edgeToggles cx cy (st.p1x, st.p1y) q = true := by
        have hc' : toggleCond cx cy q.1 st.p1y q.1 q.2 := hx ▸ hc
        simp [edgeToggles, hc, hc', hx]
      rw [if_pos hx, hedge]
      simp
    · have hedge : edgeToggles cx cy (st.p1x, st.p1y) q
          = decide (cx ≤ xIntersection cy st.p1x st.p1y q.1 q.2) := by
        simp [edgeToggles, hc, hx]
      rw [if_neg hx, hedge]
      by_cases hle : cx ≤ xIntersection cy st.p1x st.p1y q.1 q.2
      · simp [hle]
      · simp [hle]
  · have hedge : edgeToggles cx cy (st.p1x, st.p1y) q = false := by
      simp [edgeToggles, hc]
    rw [if_neg hc, if_neg hc, hedge]
    simp

/-- The whole monadic fold of `rayStep`s succeeds and equals the pure fold. -/
theorem foldlM_rayStep {α : Type} (cx cy : ℚ) (f : α → Pt) :
    ∀ (l : List α) (st : RayState),
      l.foldlM (fun s a => rayStep cx cy s (f a)) st
        = some (l.foldl (fun s a => pureStep cx cy s (f a)) st)
  | [], _ => rfl
  | a :: l, st => by
    rw [List.foldlM_cons, rayStep_eq]
    simpa using foldlM_rayStep cx cy f l (pureStep cx cy st (f a))

/-- The degenerate edge from a vertex to itself never toggles. -/
theorem edgeToggles_self (cx cy : ℚ) (q : Pt) :
    edgeToggles cx cy q q = false := by
  have h : ¬ toggleCond cx cy q.1 q.2 q.1 q.2 := by
    intro h
    exact toggleCond_ne_y h rfl
  simp [edgeToggles, h]

/-! ### The `range (n+1)` loop visits the vertex list and then vertex 0 -/

theorem map_getD_range {α : Type} (d : α) :
    ∀ l : List α, (List.range l.length).map (fun i => l.getD i d) = l
  | [] => rfl
  | a :: tl => by
    rw [List.length_cons, List.range_succ_eq_map, List.map_cons, List.map_map]
    refine congrArg (a :: ·) ?_
    have h : ((fun i => (a :: tl).getD i d) ∘ Nat.succ)
        = fun i => tl.getD i d := by
      funext i
      simp [Function.comp, List.getD_cons_succ]
    rw [h, map_getD_range d tl]

/-- The points visited by the loop `for i in range(n + 1)` with
`polygon[i % n]`: the polygon itself, then vertex 0 once more. -/
theorem range_mod_map (p0 : Pt) (rest : List Pt) :
    (List.range ((p0 :: rest).length + 1)).map
        (fun i => (p0 :: rest).getD (i % (p0 :: rest).length) (0, 0))
      = (p0 :: rest) ++ [p0] := by
  set poly := p0 :: rest with hpoly
  set n := poly.length with hn
  have hpos : 0 < n := by simp [hn, hpoly]
  rw [List.range_succ, List.map_append]
  refine congrArg₂ (· ++ ·) ?_ ?_
  · have h : ∀ i ∈ List.range n,
        poly.getD (i % n) (0, 0) = poly.getD i (0, 0) := by
      intro i hi
      rw [Nat.mod_eq_of_lt (List.mem_range.mp hi)]
    rw [List.map_congr_left h, map_getD_range]
  · simp [Nat.mod_self, hpoly]

/-! ### The pure fold over the visited points equals the edge fold -/

theorem zip_append_left {α β : Type} (x : α) :
    ∀ (l1 : List α) (l2 : List β), l2.length ≤ l1.length →
      (l1 ++ [x]).zip l2 = l1.zip l2
  | _, [], _ => by simp
  | [], _ :: _, h => by simp at h
  | a :: t1, b :: t2, h => by
    simp only [List.cons_append, List.zip_cons_cons]
    rw [zip_append_left x t1 t2 (by simpa using h)]

theorem foldl_pureStep_inside (cx cy : ℚ) :
    ∀ (l : List Pt) (st : RayState),
      (l.foldl (pureStep cx cy) st).inside
        = (((st.p1x, st.p1y) :: l).zip l).foldl
            (fun b e => if edgeToggles cx cy e.1 e.2 then !b else b) st.inside
  | [], _ => rfl
  | q :: tl, st => by
    rw [List.foldl_cons, foldl_pureStep_inside cx cy tl (pureStep cx cy st q)]
    simp [pureStep, List.zip_cons_cons]

/-- The fold over `range (n + 1)` with `polygon[i % n]` is the fold over
the vertex list followed by vertex 0. -/
theorem foldl_range_getD {β : Type} (g : β → Pt → β) (p0 : Pt) (rest : List Pt)
    (init : β) :
    (List.range ((p0 :: rest).length + 1)).foldl
        (fun st i => g st
          ((fun j => (p0 :: rest).getD (j % (p0 :: rest).length) (0, 0)) i)) init
      = ((p0 :: rest) ++ [p0]).foldl g init := by
  rw [← range_mod_map p0 rest, List.foldl_map]

/-- The ray-casting loop of `check_overlap` computes exactly the
standard edge fold: the extra iteration pairs vertex 0 with itself and
cannot toggle, and the remaining `n` iterations walk the `n` edges. -/
theorem pip_cons_eq (pt : Pt) (p0 : Pt) (rest : List Pt) :
    pip pt (p0 :: rest) = some (rayCastEdges pt (p0 :: rest)) := by
  simp only [pip]
  rw [foldlM_rayStep pt.1 pt.2
      (fun j => (p0 :: rest).getD (j % (p0 :: rest).length) (0, 0))]
  rw [Option.map_some']
  refine congrArg some ?_
  rw [foldl_range_getD (pureStep pt.1 pt.2) p0 rest]
  rw [List.cons_append, List.foldl_cons]
  rw [foldl_pureStep_inside]
  have h1 : (pureStep pt.1 pt.2 ⟨p0.1, p0.2, false, none⟩ p0).p1x = p0.1 := rfl
  have h2 : (pureStep pt.1 pt.2 ⟨p0.1, p0.2, false, none⟩ p0).p1y = p0.2 := rfl
  have h3 : (pureStep pt.1 pt.2 ⟨p0.1, p0.2, false, none⟩ p0).inside = false := by
    simp [pureStep, edgeToggles_self]
  rw [h1, h2, h3]
  have hzip : ((p0.1, p0.2) :: (rest ++ [p0])).zip (rest ++ [p0])
      = ((p0 :: rest).zip (rest ++ [p0])) := by
    rw [show ((p0.1, p0.2) : Pt) = p0 from rfl]
    rw [show p0 :: (rest ++ [p0]) = (p0 :: rest) ++ [p0] from rfl]
    exact zip_append_left p0 (p0 :: rest) (rest ++ [p0]) (by simp)
  rw [hzip]
  unfold rayCastEdges polygonEdges
  rw [List.rotate_cons_succ rest p0 0, List.rotate_zero]

/-- On every non-empty polygon, `pip` succeeds and agrees with the edge fold. -/
theorem pip_total (pt : Pt) {poly : List Pt} (h : poly ≠ []) :
    pip pt poly = some (rayCastEdges pt poly) := by
  cases poly with
  | nil => exact absurd rfl h
  | cons p0 rest => exact pip_cons_eq pt p0 rest

/-! ### The detection filter -/

theorem mem_detected_vehicles {dets : List DetEntry} {d : DetEntry} :
    d ∈ detected_vehicles dets ↔ d ∈ dets ∧ isVehicle d = true :=
  List.mem_filter

/-! ### `any(check_overlap(vehicle['box'], polygon) for ...)` -/

theorem anyOverlap_spec {polygon : List Pt} (hp : polygon ≠ []) :
    ∀ vehicles : List DetEntry, (∀ d ∈ vehicles, hasBox d = true) →
      ∃ b, anyOverlap vehicles polygon = some b ∧
        (b = true ↔ ∃ d ∈ vehicles, ∃ bx, boxOf d = some bx ∧
          rayCastEdges (boxCenter bx) polygon = true)
  | [], _ => ⟨false, rfl, by simp⟩
  | v :: rest, hb => by
    obtain ⟨bx, hbx⟩ : ∃ bx, boxOf v = some bx := by
      have hv := hb v (List.mem_cons_self v rest)
      cases v with
      | nonObj => simp [hasBox] at hv
      | obj l s b =>
        cases b with
        | none => simp [hasBox] at hv
        | some bb => exact ⟨bb, rfl⟩
    have hco : check_overlap bx polygon
        = some (rayCastEdges (boxCenter bx) polygon) :=
      pip_total (boxCenter bx) hp
    obtain ⟨b', hb', hiff⟩ :=
      anyOverlap_spec hp rest (fun d hd => hb d (List.mem_cons_of_mem v hd))
    by_cases hc : rayCastEdges (boxCenter bx) polygon = true
    · refine ⟨true, ?_, ?_⟩
      · simp [anyOverlap, hbx, hco, hc]
      · exact ⟨fun _ => ⟨v, List.mem_cons_self v rest, bx, hbx, hc⟩, fun _ => rfl⟩
    · have hcf : rayCastEdges (boxCenter bx) polygon = false :=
        Bool.eq_false_iff.mpr hc
      refine ⟨b', ?_, ?_⟩
      · simp [anyOverlap, hbx, hco, hcf, hb']
      · rw [hiff]
        constructor
        · rintro ⟨d, hd, bx', hbx', hray⟩
          exact ⟨d, List.mem_cons_of_mem v hd, bx', hbx', hray⟩
        · rintro ⟨d, hd, bx', hbx', hray⟩
          rcases List.mem_cons.mp hd with h | h
          · subst h
            rw [hbx] at hbx'
            cases hbx'
            exact absurd hray hc
          · exact ⟨d, h, bx', hbx', hray⟩

/-- The `occupied_status` loop succeeds when every filtered vehicle has a
box and every polygon is non-empty, and its i-th entry is the OR over
detections of box-center containment. -/
theorem occupied_status_spec (vehicles : List DetEntry)
    (hb : ∀ d ∈ vehicles, hasBox d = true) :
    ∀ polys : List (List Pt), (∀ p ∈ polys, p ≠ []) →
      ∃ v, occupied_status vehicles polys = some v ∧
        v.length = polys.length ∧
        ∀ i, i < polys.length →
          (v.getD i false = true ↔ ∃ d ∈ vehicles, ∃ bx, boxOf d = some bx ∧
            rayCastEdges (boxCenter bx) (polys.getD i []) = true) := by
  intro polys
  induction polys with
  | nil =>
    intro _
    exact ⟨[], rfl, rfl, fun i hi => absurd hi (by simp)⟩
  | cons poly rest ih =>
    intro hp
    obtain ⟨b, hb1, hiff1⟩ :=
      anyOverlap_spec (hp poly (List.mem_cons_self poly rest)) vehicles hb
    obtain ⟨v, hv, hlen, hiffs⟩ := ih (fun p hpm => hp p (List.mem_cons_of_mem poly hpm))
    refine ⟨b :: v, ?_, by simp [hlen], ?_⟩
    · simp [occupied_status, hb1, hv]
    · intro i hi
      cases i with
      | zero => simpa using hiff1
      | succ j =>
        simp only [List.getD_cons_succ]
        exact hiffs j (by simpa using hi)

/-! ### The status aggregation loop -/

/-- A successful `processCam` keeps the camera's key. -/
theorem processCam_fst {Img : Type} {fetch : String → Option Img}
    {detect : Img → List DetEntry} {e : String × CamData}
    {r : String × List Bool} (h : processCam fetch detect e = some r) :
    r.1 = e.1 := by
  by_cases hp : e.2.polygons.isEmpty
  · rw [processCam, if_pos hp] at h
    cases h
    rfl
  · rw [processCam, if_neg hp] at h
    cases hf : fetch e.1 with
    | some img =>
      rw [hf] at h
      simp only at h
      obtain ⟨v, _, hrv⟩ := Option.map_eq_some'.mp h
      rw [← hrv]
    | none =>
      rw [hf] at h
      simp only at h
      cases h
      rfl

/-- The function `processCam` only reads the fetch result of its own camera key. -/
theorem processCam_congr {Img : Type} {fetch1 fetch2 : String → Option Img}
    (detect : Img → List DetEntry) (e : String × CamData)
    (h : fetch1 e.1 = fetch2 e.1) :
    processCam fetch1 detect e = processCam fetch2 detect e := by
  unfold processCam
  rw [h]

/-- When acquisition fails, `processCam` substitutes the all-free vector
of the camera's polygon count (for zero polygons, the empty vector). -/
theorem processCam_fail {Img : Type} {fetch : String → Option Img}
    (detect : Img → List DetEntry) {e : String × CamData}
    (hf : fetch e.1 = none) :
    processCam fetch detect e
      = some (e.1, List.replicate e.2.polygons.length false) := by
  by_cases hp : e.2.polygons.isEmpty
  · rw [processCam, if_pos hp]
    have he : e.2.polygons = [] := by simpa using hp
    simp [he]
  · rw [processCam, if_neg hp, hf]

/-- A successful run records the `processCam` result of each camera, in
configuration order. -/
theorem run_pointwise {Img : Type} (fetch : String → Option Img)
    (detect : Img → List DetEntry) :
    ∀ (spots : List (String × CamData)) (m : List (String × List Bool)),
      run_status_check fetch detect spots = some m →
      m.length = spots.length ∧
      ∀ i, i < spots.length →
        processCam fetch detect (spots.getD i noCam)
          = some (m.getD i noEntry)
  | [], m, h => by
    cases h
    exact ⟨rfl, fun i hi => absurd hi (by simp)⟩
  | e :: rest, m, h => by
    unfold run_status_check at h
    cases hr : processCam fetch detect e with
    | none => rw [hr] at h; simp at h
    | some r =>
      rw [hr] at h
      cases hm : run_status_check fetch detect rest with
      | none => rw [hm] at h; simp at h
      | some m' =>
        rw [hm] at h
        have h2 : some (r :: m') = some m := h
        cases h2
        obtain ⟨hlen, hpt⟩ := run_pointwise fetch detect rest m' hm
        refine ⟨by simp [hlen], ?_⟩
        intro i hi
        cases i with
        | zero => simpa using hr
        | succ j =>
          simp only [List.getD_cons_succ]
          exact hpt j (by simpa using hi)

/-- A successful run means every camera's `processCam` succeeded. -/
theorem run_success_entries {Img : Type} (fetch : String → Option Img)
    (detect : Img → List DetEntry) :
    ∀ (spots : List (String × CamData)) (m : List (String × List Bool)),
      run_status_check fetch detect spots = some m →
      ∀ e ∈ spots, ∃ r, processCam fetch detect e = some r
  | [], _, _ => by intro e he; simp at he
  | e0 :: rest, m, h => by
    intro e he
    unfold run_status_check at h
    cases hr : processCam fetch detect e0 with
    | none => rw [hr] at h; simp at h
    | some r =>
      rw [hr] at h
      cases hm : run_status_check fetch detect rest with
      | none => rw [hm] at h; simp at h
      | some m' =>
        rcases List.mem_cons.mp he with h0 | h0
        · subst h0; exact ⟨r, hr⟩
        · exact run_success_entries fetch detect rest m' hm e h0

/-- A run succeeds as soon as every camera's `processCam` succeeds. -/
theorem run_total {Img : Type} (fetch : String → Option Img)
    (detect : Img → List DetEntry) :
    ∀ spots : List (String × CamData),
      (∀ e ∈ spots, ∃ r, processCam fetch detect e = some r) →
      ∃ m, run_status_check fetch detect spots = some m
  | [], _ => ⟨[], rfl⟩
  | e :: rest, hall => by
    obtain ⟨r, hr⟩ := hall e (List.mem_cons_self e rest)
    obtain ⟨m, hm⟩ :=
      run_total fetch detect rest (fun e' he' => hall e' (List.mem_cons_of_mem e he'))
    exact ⟨r :: m, by unfold run_status_check; rw [hr, hm]; rfl⟩

/-- A successful run's key list is the configuration's key list. -/
theorem run_fst {Img : Type} (fetch : String → Option Img)
    (detect : Img → List DetEntry) :
    ∀ (spots : List (String × CamData)) (m : List (String × List Bool)),
      run_status_check fetch detect spots = some m →
      m.map Prod.fst = spots.map Prod.fst
  | [], m, h => by cases h; rfl
  | e :: rest, m, h => by
    unfold run_status_check at h
    cases hr : processCam fetch detect e with
    | none => rw [hr] at h; simp at h
    | some r =>
      rw [hr] at h
      cases hm : run_status_check fetch detect rest with
      | none => rw [hm] at h; simp at h
      | some m' =>
        rw [hm] at h
        have h2 : some (r :: m') = some m := h
        cases h2
        simp only [List.map_cons]
        rw [processCam_fst hr, run_fst fetch detect rest m' hm]

/-! ### Claims -/

/-- C3: the vehicle filter keeps exactly the detections that are dict
records whose label is in {car, truck, bus, motorcycle} and whose score
is strictly above 0.7, in order; on the car-0.9/car-0.5 example it keeps
exactly the first, and on the empty list it returns the empty list. -/
theorem c3_filter_keeps_exactly_vehicles :
    (∀ (dets : List DetEntry) (d : DetEntry),
        d ∈ detected_vehicles dets ↔ d ∈ dets ∧ isVehicle d = true) ∧
    (∀ (label : Option String) (score : Option ℚ) (box : Option Box),
        isVehicle (.obj label score box) = true ↔
          ((∃ l, label = some l ∧ l ∈ vehicle_labels) ∧ (0.7 : ℚ) < score.getD 0)) ∧
    isVehicle .nonObj = false ∧
    detected_vehicles [] = [] ∧
    detected_vehicles [dCar, dCarLow] = [dCar] := by
  have hCar : isVehicle dCar = true := by
    norm_num [isVehicle, dCar, vehicle_labels]
  have hLow : isVehicle dCarLow = false := by
    norm_num [isVehicle, dCarLow, vehicle_labels]
  refine ⟨fun _ _ => mem_detected_vehicles, ?_, rfl, rfl, ?_⟩
  · intro label score box
    cases label with
    | none => simp [isVehicle]
    | some l => simp [isVehicle, List.contains_eq_any_beq]
  · simp [detected_vehicles, hCar, hLow]

/-- C4: when the vehicle filter leaves nothing, `detect_occupancy`
returns the all-false vector of the polygon count, whatever the polygon
list is (no per-polygon containment work happens, so even degenerate
polygons cannot fail). -/
theorem c4_fast_path (dets : List DetEntry) (polys : List (List Pt))
    (h : detected_vehicles dets = []) :
    detect_occupancy dets polys = some (List.replicate polys.length false) := by
  simp [detect_occupancy, h]

/-- C4 witness: five polygons and one high-confidence person yield five
`false` entries. -/
theorem c4_fast_path_witness :
    detect_occupancy [dPerson] [sq4, sq4, sq4, sq4, sq4]
      = some [false, false, false, false, false] := by
  rw [c4_fast_path [dPerson] [sq4, sq4, sq4, sq4, sq4]
    (by simp [detected_vehicles, isVehicle, dPerson, vehicle_labels])]
  rfl

/-- C7: an exactly horizontal edge can never satisfy the half-open
y-range guard, so the loop body leaves the inside flag and the
`x_intersection` variable untouched there (in particular the division by
`p2y - p1y` is never evaluated for it and no unassigned read occurs),
and the whole containment test succeeds on every non-empty polygon. -/
theorem c7_horizontal_edge_safe :
    (∀ (cx cy : ℚ) (st : RayState) (q : Pt), st.p1y = q.2 →
        rayStep cx cy st q = some ⟨q.1, q.2, st.inside, st.xint⟩) ∧
    (∀ (pt : Pt) (poly : List Pt), poly ≠ [] → ∃ b, pip pt poly = some b) := by
  constructor
  · intro cx cy st q hy
    have hnc : ¬ toggleCond cx cy st.p1x st.p1y q.1 q.2 :=
      fun hc => toggleCond_ne_y hc hy
    rw [rayStep, if_neg hnc]
  · intro pt poly h
    exact ⟨rayCastEdges pt poly, pip_total pt h⟩

/-- C7 witness: a concrete horizontal edge is skipped unchanged, and a
concrete non-empty polygon yields a boolean. -/
theorem c7_horizontal_edge_safe_witness :
    rayStep 0 0 ⟨0, 5, false, none⟩ (3, 5) = some ⟨3, 5, false, none⟩ ∧
    ∃ b, pip (0, 0) [((1 : ℚ), (1 : ℚ))] = some b :=
  ⟨c7_horizontal_edge_safe.1 0 0 ⟨0, 5, false, none⟩ (3, 5) rfl,
   c7_horizontal_edge_safe.2 (0, 0) [(1, 1)] (by simp)⟩

/-- C9: on any polygon with at least one vertex, the loop of
`num_vertices + 1` iterations equals the standard ray-cast fold over
exactly the polygon's `num_vertices` edges, because its first iteration
pairs vertex 0 with itself and a degenerate self-edge never toggles. -/
theorem c9_extra_iteration_refines_edge_fold (pt : Pt) (poly : List Pt)
    (h : poly ≠ []) :
    pip pt poly = some (rayCastEdges pt poly) ∧
    ∀ q : Pt, edgeToggles pt.1 pt.2 q q = false :=
  ⟨pip_total pt h, fun q => edgeToggles_self pt.1 pt.2 q⟩

/-- C9 witness: the equivalence at a concrete point and triangle. -/
theorem c9_extra_iteration_refines_edge_fold_witness :
    pip (1, 1) tri3 = some (rayCastEdges (1, 1) tri3) ∧
    ∀ q : Pt, edgeToggles 1 1 q q = false :=
  c9_extra_iteration_refines_edge_fold (1, 1) tri3 (by simp [tri3])

/-- C10: a dict record with no score field gets default score 0, which
is not above the 0.7 threshold, so it is excluded by the filter (and
never causes a failure), for any label and box. -/
theorem c10_missing_score_defaults_to_zero :
    (∀ (label : Option String) (box : Option Box),
        isVehicle (.obj label none box) = false) ∧
    (∀ (label : Option String) (box : Option Box),
        isVehicle (.obj label none box) = isVehicle (.obj label (some 0) box)) ∧
    (∀ (dets : List DetEntry) (label : Option String) (box : Option Box),
        DetEntry.obj label none box ∉ detected_vehicles dets) := by
  have hz : ∀ label : Option String, ∀ box : Option Box,
      isVehicle (.obj label none box) = false := by
    intro label box
    simp [isVehicle]
    intro _
    norm_num
  refine ⟨hz, fun label box => ?_, ?_⟩
  · rfl
  · intro dets label box hm
    rw [mem_detected_vehicles] at hm
    rw [hz label box] at hm
    exact Bool.false_ne_true hm.2

/-- C1 counterexample: a dict record with a vehicle label and passing
score but no bounding box is NOT skipped by the vehicle filter — it is
kept and propagated into containment testing, where occupancy
resolution fails (Python `KeyError` on `vehicle['box']`). -/
theorem c1_boxless_record_not_skipped :
    detected_vehicles [dBoxless] = [dBoxless] ∧
    detect_occupancy [dBoxless] [sq4] = none := by
  have hv : isVehicle dBoxless = true := by
    norm_num [isVehicle, dBoxless, vehicle_labels]
  have hdv : detected_vehicles [dBoxless] = [dBoxless] := by
    simp [detected_vehicles, hv]
  refine ⟨hdv, ?_⟩
  have hao : anyOverlap [dBoxless] sq4 = none := by
    simp [anyOverlap, boxOf, dBoxless]
  simp [detect_occupancy, hdv, occupied_status, hao]

/-- C1 (amended): non-dict entries and dict records without a vehicle
label or a passing score are skipped by the filter and never
propagated, and occupancy resolution completes without failure provided
every record that does pass the filter carries a bounding box (and
polygons are non-empty); as stated the claim fails, because a boxless
record with a vehicle label and passing score is kept and makes
resolution fail. -/
theorem c1_malformed_entries_skipped (dets : List DetEntry)
    (polys : List (List Pt))
    (hbox : ∀ d ∈ detected_vehicles dets, hasBox d = true)
    (hpoly : ∀ p ∈ polys, p ≠ []) :
    (∃ v, detect_occupancy dets polys = some v) ∧
    ∀ d ∈ dets, isVehicle d = false → d ∉ detected_vehicles dets := by
  constructor
  · by_cases hv : detected_vehicles dets = []
    · exact ⟨List.replicate polys.length false, by simp [detect_occupancy, hv]⟩
    · obtain ⟨v, hvv, _, _⟩ :=
        occupied_status_spec (detected_vehicles dets) hbox polys hpoly
      refine ⟨v, ?_⟩
      simp only [detect_occupancy]
      rw [if_neg (by simpa [List.isEmpty_iff] using hv)]
      exact hvv
  · intro d _ hnv hmem
    rw [mem_detected_vehicles] at hmem
    rw [hnv] at hmem
    exact Bool.false_ne_true hmem.2

/-- C1 witness for the amended claim: a mixed list with a person record,
a non-dict error entry and a proper car resolves without failure, and
the non-vehicle entries are not in the filter output. -/
theorem c1_malformed_entries_skipped_witness :
    (∃ v, detect_occupancy [dPerson, DetEntry.nonObj, dCar] [sq4] = some v) ∧
    ∀ d ∈ [dPerson, DetEntry.nonObj, dCar], isVehicle d = false →
      d ∉ detected_vehicles [dPerson, DetEntry.nonObj, dCar] :=
  c1_malformed_entries_skipped [dPerson, DetEntry.nonObj, dCar] [sq4]
    (by
      have h1 : isVehicle dPerson = false := by
        simp [isVehicle, dPerson, vehicle_labels]
      have h2 : isVehicle dCar = true := by
        norm_num [isVehicle, dCar, vehicle_labels]
      have h3 : isVehicle DetEntry.nonObj = false := rfl
      simp [detected_vehicles, h1, h2, h3, hasBox, dCar])
    (by simp [sq4])

/-- C2: with a non-empty filtered vehicle list (each filtered record
carrying a box) and a non-empty list of polygons of ≥ 3 vertices,
`detect_occupancy` returns a vector of the polygon list's length whose
i-th entry is true iff at least one filtered detection's box center
lies inside the i-th polygon; the containment test depends only on the
box center, not the box shape. -/
theorem c2_resolve_is_or_of_center_containment (dets : List DetEntry)
    (polys : List (List Pt)) (_hpolys : polys ≠ [])
    (hvert : ∀ p ∈ polys, 3 ≤ p.length)
    (hbox : ∀ d ∈ detected_vehicles dets, hasBox d = true)
    (hne : detected_vehicles dets ≠ []) :
    (∀ (b : Box) (q : List Pt), check_overlap b q = pip (boxCenter b) q) ∧
    ∃ v, detect_occupancy dets polys = some v ∧
      v.length = polys.length ∧
      ∀ i, i < polys.length →
        (v.getD i false = true ↔
          ∃ d ∈ detected_vehicles dets, ∃ bx, boxOf d = some bx ∧
            rayCastEdges (boxCenter bx) (polys.getD i []) = true) := by
  refine ⟨fun _ _ => rfl, ?_⟩
  have hp : ∀ p ∈ polys, p ≠ [] := by
    intro p hp0 he
    have h3 := hvert p hp0
    rw [he] at h3
    simp at h3
  obtain ⟨v, hv, hlen, hiff⟩ :=
    occupied_status_spec (detected_vehicles dets) hbox polys hp
  refine ⟨v, ?_, hlen, hiff⟩
  simp only [detect_occupancy]
  rw [if_neg (by simpa [List.isEmpty_iff] using hne)]
  exact hv

/-- C2 witness: one car whose box center is `(2, 2)`, two square spots. -/
theorem c2_resolve_is_or_of_center_containment_witness :
    (∀ (b : Box) (q : List Pt), check_overlap b q = pip (boxCenter b) q) ∧
    ∃ v, detect_occupancy [dCar] [sq4, farSq] = some v ∧
      v.length = [sq4, farSq].length ∧
      ∀ i, i < [sq4, farSq].length →
        (v.getD i false = true ↔
          ∃ d ∈ detected_vehicles [dCar], ∃ bx, boxOf d = some bx ∧
            rayCastEdges (boxCenter bx) ([sq4, farSq].getD i []) = true) :=
  c2_resolve_is_or_of_center_containment [dCar] [sq4, farSq]
    (by simp)
    (by simp [sq4, farSq])
    (by
      have h2 : isVehicle dCar = true := by
        norm_num [isVehicle, dCar, vehicle_labels]
      simp [detected_vehicles, h2, hasBox, dCar])
    (by
      have h2 : isVehicle dCar = true := by
        norm_num [isVehicle, dCar, vehicle_labels]
      simp [detected_vehicles, h2])

/-- C5: when acquisition fails for camera `c` (holding at least one
polygon wherever configured) while every other camera's acquisition is
unchanged, the cycle still completes with the configuration's key list,
`c`'s entries are all-false vectors of its polygon count, and every
other camera's entry equals what the non-failing run produced. -/
theorem c5_acquisition_failure_isolated {Img : Type}
    (fetch1 fetch2 : String → Option Img) (detect : Img → List DetEntry)
    (spots : List (String × CamData)) (c : String)
    (m2 : List (String × List Bool))
    (hfail : fetch1 c = none)
    (hagree : ∀ s, s ≠ c → fetch1 s = fetch2 s)
    (_hpoly : ∀ e ∈ spots, e.1 = c → e.2.polygons ≠ [])
    (h2 : run_status_check fetch2 detect spots = some m2) :
    ∃ m1, run_status_check fetch1 detect spots = some m1 ∧
      m1.map Prod.fst = spots.map Prod.fst ∧
      m1.length = spots.length ∧
      ∀ i, i < spots.length →
        ((spots.getD i noCam).1 = c →
          m1.getD i noEntry
            = (c, List.replicate (spots.getD i noCam).2.polygons.length false)) ∧
        ((spots.getD i noCam).1 ≠ c →
          m1.getD i noEntry = m2.getD i noEntry) := by
  have htot : ∀ e ∈ spots, ∃ r, processCam fetch1 detect e = some r := by
    intro e he
    by_cases hec : e.1 = c
    · exact ⟨(e.1, List.replicate e.2.polygons.length false),
        processCam_fail detect (by rw [hec]; exact hfail)⟩
    · obtain ⟨r, hr⟩ := run_success_entries fetch2 detect spots m2 h2 e he
      exact ⟨r, by rw [processCam_congr detect e (hagree e.1 hec), hr]⟩
  obtain ⟨m1, hm1⟩ := run_total fetch1 detect spots htot
  obtain ⟨hlen1, hpt1⟩ := run_pointwise fetch1 detect spots m1 hm1
  obtain ⟨hlen2, hpt2⟩ := run_pointwise fetch2 detect spots m2 h2
  refine ⟨m1, hm1, run_fst fetch1 detect spots m1 hm1, hlen1, ?_⟩
  intro i hi
  constructor
  · intro hec
    have hf1 : fetch1 (spots.getD i noCam).1 = none := by
      rw [hec]
      exact hfail
    have h1 := hpt1 i hi
    rw [processCam_fail detect hf1] at h1
    have h3 := Option.some.inj h1
    rw [← h3, hec]
  · intro hec
    have h1 := hpt1 i hi
    rw [processCam_congr detect _ (hagree _ hec), hpt2 i hi] at h1
    exact (Option.some.inj h1).symm

/-- C5 witness: two one-polygon cameras, `"cam1"`'s acquisition fails. -/
theorem c5_acquisition_failure_isolated_witness :
    ∃ m1, run_status_check wFetchFail wDetectNone wSpots = some m1 ∧
      m1.map Prod.fst = wSpots.map Prod.fst ∧
      m1.length = wSpots.length ∧
      ∀ i, i < wSpots.length →
        ((wSpots.getD i noCam).1 = "cam1" →
          m1.getD i noEntry
            = ("cam1",
                List.replicate (wSpots.getD i noCam).2.polygons.length false)) ∧
        ((wSpots.getD i noCam).1 ≠ "cam1" →
          m1.getD i noEntry
            = [("cam1", [false]), ("cam2", [false])].getD i noEntry) :=
  c5_acquisition_failure_isolated wFetchFail wFetchOk wDetectNone wSpots "cam1"
    [("cam1", [false]), ("cam2", [false])]
    (by simp [wFetchFail])
    (fun s hs => by simp [wFetchFail, wFetchOk, hs])
    (by simp [wSpots, sq4, farSq])
    rfl

/-- C6: the containment test is deterministic ray casting with the
half-open tie-break on every polygon of ≥ 3 vertices: it equals the
edge fold, an edge toggles only under
`min(p1y,p2y) < y ∧ y ≤ max(p1y,p2y) ∧ x ≤ max(p1x,p2x)`, and for a
vertical edge (`p1x = p2x`) the toggle happens exactly under those
range tests — the x-intersection test is treated as always satisfied. -/
theorem c6_half_open_tie_break (pt : Pt) (poly : List Pt)
    (h : 3 ≤ poly.length) :
    pip pt poly = some (rayCastEdges pt poly) ∧
    (∀ p1 q : Pt, edgeToggles pt.1 pt.2 p1 q = true →
        min p1.2 q.2 < pt.2 ∧ pt.2 ≤ max p1.2 q.2 ∧ pt.1 ≤ max p1.1 q.1) ∧
    (∀ p1 q : Pt, p1.1 = q.1 →
        (edgeToggles pt.1 pt.2 p1 q = true ↔
          (min p1.2 q.2 < pt.2 ∧ pt.2 ≤ max p1.2 q.2 ∧ pt.1 ≤ max p1.1 q.1))) := by
  have hne : poly ≠ [] := by
    intro he
    rw [he] at h
    simp at h
  refine ⟨pip_total pt hne, ?_, ?_⟩
  · intro p1 q ht
    exact of_decide_eq_true ((Bool.and_eq_true _ _).mp ht).1
  · intro p1 q hx
    simp [edgeToggles, toggleCond, hx]

/-- C6 witness: the tie-break statement at point `(2, 2)` and the
4-vertex square. -/
theorem c6_half_open_tie_break_witness :
    pip (2, 2) sq4 = some (rayCastEdges (2, 2) sq4) ∧
    (∀ p1 q : Pt, edgeToggles 2 2 p1 q = true →
        min p1.2 q.2 < 2 ∧ 2 ≤ max p1.2 q.2 ∧ 2 ≤ max p1.1 q.1) ∧
    (∀ p1 q : Pt, p1.1 = q.1 →
        (edgeToggles 2 2 p1 q = true ↔
          (min p1.2 q.2 < 2 ∧ 2 ≤ max p1.2 q.2 ∧ 2 ≤ max p1.1 q.1))) :=
  c6_half_open_tie_break (2, 2) sq4 (by simp [sq4])

/-- C8: a camera with an empty polygon list always gets the empty
vector: its `processCam` succeeds with `[]` whatever acquisition and
the detection service do, and in any successful cycle its status entry
is the empty vector. -/
theorem c8_no_polygons_empty_vector {Img : Type} (fetch : String → Option Img)
    (detect : Img → List DetEntry) (spots : List (String × CamData)) :
    (∀ e : String × CamData, e.2.polygons = [] →
        processCam fetch detect e = some (e.1, [])) ∧
    ∀ m, run_status_check fetch detect spots = some m →
      ∀ i, i < spots.length → (spots.getD i noCam).2.polygons = [] →
        m.getD i noEntry = ((spots.getD i noCam).1, []) := by
  have hone : ∀ e : String × CamData, e.2.polygons = [] →
      processCam fetch detect e = some (e.1, []) := by
    intro e he
    rw [processCam, if_pos (by simp [he])]
  refine ⟨hone, ?_⟩
  intro m hm i hi hei
  obtain ⟨_, hpt⟩ := run_pointwise fetch detect spots m hm
  have h1 := hpt i hi
  rw [hone _ hei] at h1
  exact (Option.some.inj h1).symm

/-- C8 witness: a polygon-free camera, with working acquisition, gets
`[]` both from `processCam` and in a one-camera cycle. -/
theorem c8_no_polygons_empty_vector_witness :
    processCam wFetchOk wDetectNone ("cam3", ⟨[], []⟩) = some ("cam3", []) ∧
    ([("cam3", [])] : List (String × List Bool)).getD 0 noEntry = ("cam3", []) :=
  ⟨(c8_no_polygons_empty_vector wFetchOk wDetectNone []).1 ("cam3", ⟨[], []⟩) rfl,
   (c8_no_polygons_empty_vector wFetchOk wDetectNone [("cam3", ⟨[], []⟩)]).2
     [("cam3", [])] rfl 0 (by simp) rfl⟩

/-- C10 witness: the boxless no-score car record is excluded. -/
theorem c10_missing_score_defaults_to_zero_witness :
    isVehicle (.obj (some "car") none (some carBox)) = false ∧
    DetEntry.obj (some "car") none (some carBox)
      ∉ detected_vehicles [.obj (some "car") none (some carBox)] :=
  ⟨c10_missing_score_defaults_to_zero.1 (some "car") (some carBox),
   c10_missing_score_defaults_to_zero.2.2 [.obj (some "car") none (some carBox)]
     (some "car") (some carBox)⟩

end ParkEze
